import Mathlib

/-!
# Verification of the bazelisk launcher core

A shallow embedding of the version-resolution, acquisition, launch-planning,
process-running and migration-bisection logic of the bazelisk repository,
together with theorems checking the specified properties against it.

Go strings are embedded as Lean `String`; the handful of `strings`-package
operations the code uses (`Split`, `Contains`, byte-wise comparison) are
re-implemented over `String.data` so that every definition evaluates inside
the kernel.  Filesystem and network effects are made explicit: the relevant
state (which paths exist) is threaded as a value, and remote listings or
fetches are oracles passed as function arguments.
-/

namespace Bazelisk

/-! ## Go `strings` package primitives (byte-wise, executable) -/

/-- Byte-wise (here: scalar-value-wise) lexicographic `≤` on character lists,
the order used by Go's `sort.Strings`. -/
def lexLe : List Char → List Char → Bool
  | [], _ => true
  | _ :: _, [] => false
  | a :: as, b :: bs =>
    if a.toNat < b.toNat then true
    else if b.toNat < a.toNat then false
    else lexLe as bs

/-- Go string comparison `a <= b` as used by `sort.Strings`. -/
def strLe (a b : String) : Bool := lexLe a.data b.data

/-- Relation form of `strLe`. -/
def strLeP (a b : String) : Prop := strLe a b = true

instance : DecidableRel strLeP := fun a b => inferInstanceAs (Decidable (strLe a b = true))

/-- Fuelled worker for `goSplit`: scans `s`, cutting at every occurrence of
the (non-empty) separator `sep`, exactly like Go's `strings.Split`. -/
def splitSubAux (sep : List Char) : Nat → List Char → List Char → List (List Char)
  | 0, s, acc => [acc.reverse ++ s]
  | _ + 1, [], acc => [acc.reverse]
  | fuel + 1, x :: rest, acc =>
    if sep.isPrefixOf (x :: rest) then
      acc.reverse :: splitSubAux sep fuel (List.drop sep.length (x :: rest)) []
    else
      splitSubAux sep fuel rest (x :: acc)

/-- Go `strings.Split s sep` for non-empty separators. -/
def goSplit (s sep : String) : List String :=
  (splitSubAux sep.data (s.data.length + 1) s.data []).map String.mk

/-- Worker for `goContains`. -/
def listContainsSub (sub : List Char) : List Char → Bool
  | [] => sub.isEmpty
  | x :: rest => sub.isPrefixOf (x :: rest) || listContainsSub sub rest

/-- Go `strings.Contains s sub`. -/
def goContains (s sub : String) : Bool := listContainsSub sub.data s.data

/-- Reads a run of decimal digits into a number; any non-digit fails.  This is
the behaviour of Go's `strconv.Atoi` on the inputs occurring here (integer
overflow of 64-bit `int` is not modelled; `Nat` is unbounded). -/
def digitsToNatAux : List Char → Nat → Option Nat
  | [], acc => some acc
  | c :: rest, acc =>
    if c.isDigit then digitsToNatAux rest (acc * 10 + (c.toNat - 48)) else none

/-- Go `strconv.Atoi` on non-negative inputs: `none` on the empty string or any
non-digit character. -/
def parseNat (s : String) : Option Nat :=
  match s.data with
  | [] => none
  | _ :: _ => digitsToNatAux s.data 0

/-! ## Version ordering

Modelled from the spec: the repository's `versions` package (function
`versions.GetInAscendingOrder`, not included under `src/`) sorts version
labels "in ascending semantic-version order".  Versions are compared by
their dot-separated numeric segments. -/

/-- Dot-separated numeric segments of a version label (non-numeric segments
degrade to `0`, mirroring a permissive semver parse). -/
def verSegs (s : String) : List Nat :=
  (goSplit s ".").map (fun seg => (parseNat seg).getD 0)

/-- Lexicographic `≤` on segment lists. -/
def natLexLe : List Nat → List Nat → Bool
  | [], _ => true
  | _ :: _, [] => false
  | a :: as, b :: bs =>
    if a < b then true
    else if b < a then false
    else natLexLe as bs

/-- Modelled from the spec: ascending semantic-version order on labels. -/
def verLe (a b : String) : Bool := natLexLe (verSegs a) (verSegs b)

/-- Relation form of `verLe`. -/
def verLeP (a b : String) : Prop := verLe a b = true

instance : DecidableRel verLeP := fun a b => inferInstanceAs (Decidable (verLe a b = true))

/-- Modelled from the spec: `versions.GetInAscendingOrder` returns the listing
sorted in ascending semantic-version order. -/
def GetInAscendingOrder (vs : List String) : List String :=
  List.insertionSort verLeP vs

/-! ## C1: relative `latest-N` resolution

`resolveLatestVersion` from `src/unnamed/part_000` (lines 183-201).  The
backend listing (`repos.Releases.GetReleaseVersions` / `repos.Fork.GetVersions`)
is passed in as the value it returned; the surrounding error wrapping of a
failed listing is not relevant to the indexing property and is omitted. -/

/-- Function `resolveLatestVersion`: checks the offset against the number of available
versions, then indexes the ascending-sorted listing from the top. -/
def resolveLatestVersion (available : List String) (offset : Nat) : Except String String :=
  if available.length ≤ offset then
    Except.error ("cannot resolve version \"latest-" ++ toString offset ++
      "\": There are only " ++ toString available.length ++ " Bazel versions")
  else
    Except.ok ((GetInAscendingOrder available).getD (available.length - 1 - offset) "")

/-! ## C9: `insertArgs` and `getSortedKeys`

From `src/unnamed/part_000` (lines 526-541 and 649-656). -/

/-- Function `insertArgs`: insert `newArgs` immediately before the first literal `"--"`
of `baseArgs`, or append at the end if there is none. -/
def insertArgs (baseArgs newArgs : List String) : List String :=
  match baseArgs with
  | [] => newArgs
  | arg :: rest =>
    if arg = "--" then newArgs ++ arg :: rest
    else arg :: insertArgs rest newArgs

/-- Function `getSortedKeys`: the flag map's key set (a duplicate-free list, iteration
order irrelevant) sorted with `sort.Strings`. -/
def getSortedKeys (keys : List String) : List String :=
  List.insertionSort strLeP keys

/-! ## C2: migration bisection

`migrate` from `src/unnamed/part_000` (lines 580-647) / `src/execution/migrate.go`.
The child-process runner is an oracle `run : List String → Int` mapping an
argument list to the trial's exit code (trials are sequential and share no
modelled state, so the oracle is a function of the arguments).  The optional
shutdown/clean sub-invocations are disabled (their environment toggles unset),
and the `log.Fatalf` path for a runner error is out of scope: the oracle
always yields an exit code.  `os.Exit` is modelled by returning the outcome. -/

/-- Observable outcome of `migrate`: the bisection trials in execution order,
the process exit code, and the per-flag classification. -/
structure MigrateOutcome where
  trials : List (List String)
  exitCode : Int
  passList : List String
  failList : List String
deriving DecidableEq

/-- Function `migrate`: all-flags trial, then no-flags sanity trial, then one trial per
flag, classifying each into the pass or fail list, then exit 1. -/
def migrate (run : List String → Int) (baseArgs : List String) (flags : List String) :
    MigrateOutcome :=
  let newArgs := getSortedKeys flags
  let allArgs := insertArgs baseArgs newArgs
  if run allArgs = 0 then
    { trials := [allArgs], exitCode := 0, passList := [], failList := [] }
  else if run baseArgs ≠ 0 then
    { trials := [allArgs, baseArgs], exitCode := run baseArgs, passList := [], failList := [] }
  else
    { trials := allArgs :: baseArgs :: newArgs.map (fun arg => insertArgs baseArgs [arg])
      exitCode := 1
      passList := newArgs.filter (fun arg => run (insertArgs baseArgs [arg]) == 0)
      failList := newArgs.filter (fun arg => !(run (insertArgs baseArgs [arg]) == 0)) }

/-! ## C3: `last_rc` resolution

`getHighestRcVersion` and `resolveLatestRcVersion` from
`src/version/resolution.go` (lines 69-108).  The GCS listings are oracles.
Go's `regexp.FindStringSubmatch` with pattern `(\d+.\d+.\d+)/rc(\d+)/` is
modelled by `rcMatch`, a parser that recognises the directory-listing entries
the pattern is applied to (`"<a>.<b>.<c>/rc<n>/"`); indexing the `nil` result
of a failed match is a Go runtime panic, modelled by the `crash` outcome. -/

/-- Outcome of a Go function returning `(string, error)` that can also panic. -/
inductive GoResult where
  | ok (value : String)
  | err (msg : String)
  | crash
deriving DecidableEq

/-- Model of `regexp.MustCompile("(\d+.\d+.\d+)/rc(\d+)/").FindStringSubmatch`
on release-bucket directory entries: accepts `"<base>/rc<n>/"` where `base`
has three dot-separated numeric groups, yielding the two capture groups. -/
def rcMatch (v : String) : Option (String × Nat) :=
  match goSplit v "/" with
  | [base, rcpart, ""] =>
    (match goSplit base "." with
      | [a, b, c] =>
        (match parseNat a, parseNat b, parseNat c with
          | some _, some _, some _ =>
            if rcpart.data.take 2 = ['r', 'c'] then
              (match parseNat (String.mk (rcpart.data.drop 2)) with
                | some n => some (base, n)
                | none => none)
            else none
          | _, _, _ => none)
      | _ => none)
  | _ => none

/-- Base-version capture group of an RC-shaped entry (`""` if not RC-shaped). -/
def rcBase (v : String) : String := ((rcMatch v).getD ("", 0)).1

/-- Numeric RC capture group of an RC-shaped entry (`0` if not RC-shaped). -/
def rcOf (v : String) : Nat := ((rcMatch v).getD ("", 0)).2

/-- Loop of `getHighestRcVersion`: state is the latest base version seen and
the highest RC number so far.  A `"release"` entry short-circuits to the
latest full release; a non-matching entry panics on the nil submatch. -/
def getHighestRcVersionGo : List String → String → Nat → GoResult
  | [], version, lastRc => .ok (version ++ "rc" ++ toString lastRc)
  | v :: rest, version, lastRc =>
    if goContains v "release" then .ok ((goSplit v "/").headD "")
    else
      match rcMatch v with
      | none => .crash
      | some (base, rc) =>
        getHighestRcVersionGo rest base (if lastRc < rc then rc else lastRc)

/-- Function `getHighestRcVersion` from `src/version/resolution.go` (lines 87-108);
`version` and `lastRc` start as Go zero values `""` and `0`.  The `Atoi`
error branch is unreachable in the model because the match guarantees
digits (64-bit overflow is not modelled). -/
def getHighestRcVersion (versions : List String) : GoResult :=
  getHighestRcVersionGo versions "" 0

/-- Function `resolveLatestRcVersion` from `src/version/resolution.go` (lines 69-85):
`versions` is what `getVersionHistoryFromGCS(false)` returned (already in
ascending order) and `listRc` is `listDirectoriesInReleaseBucket` restricted
to its first result. -/
def resolveLatestRcVersion (versions : List String)
    (listRc : String → Except String (List String)) : GoResult :=
  if versions.isEmpty then .err "could not find any Bazel versions"
  else
    match listRc (versions.getLastD "" ++ "/") with
    | .error e => .err ("could not list release candidates for latest release: " ++ e)
    | .ok rcVersions => getHighestRcVersion rcVersions

/-! ## C4: release-candidate label splitting

`determineURL` from `src/unnamed/part_000` (lines 275-305) and the URL
computation of `GCSRepo.DownloadCandidate` from `src/repositories/gcs.go`
(lines 167-177). -/

/-- Modelled from the spec: `core.BazelUpstream`, the default fork (the
`core` package under `src/` does not define it). -/
def BazelUpstream : String := "bazelbuild"

/-- Modelled from the spec: `core.IsFork` — a specifier is fork-qualified
when its fork part is neither empty nor the upstream source. -/
def IsFork (fork : String) : Bool := fork != "" && fork != BazelUpstream

/-- Function `determineURL`: the base URL override, the platform string
(`platforms.GetPlatform()`) and the file name are passed in.  For a
non-commit version containing `"rc"` the version string is split on `"rc"`
into the part before (the base version) and the literal kind `"rc" + rest`. -/
def determineURL (baseURL fork version : String) (isCommit : Bool)
    (platform filename : String) : String :=
  if isCommit then
    (if baseURL = "" then "https://storage.googleapis.com/bazel-builds/artifacts"
     else baseURL) ++ "/" ++ platform ++ "/" ++ version ++ "/bazel"
  else
    let pair :=
      if goContains version "rc" then
        ((goSplit version "rc").headD "", "rc" ++ (goSplit version "rc").getD 1 "")
      else (version, "release")
    if baseURL ≠ "" then
      baseURL ++ "/" ++ pair.1 ++ "/" ++ filename
    else if !(IsFork fork) then
      "https://releases.bazel.build/" ++ pair.1 ++ "/" ++ pair.2 ++ "/" ++ filename
    else
      "https://github.com/" ++ fork ++ "/bazel/releases/download/" ++ pair.1 ++ "/" ++ filename

/-- URL computation of `GCSRepo.DownloadCandidate`: rejects a version without
an `"rc"` substring, otherwise splits on `"rc"` and rebuilds the bucket URL;
the actual download is delegated to `DownloadBinary`. -/
def candidateDownloadURL (version destFile : String) : Except String String :=
  if !(goContains version "rc") then
    Except.error ("\x27" ++ version ++ "\x27 does not refer to a release candidate")
  else
    let baseVersion := (goSplit version "rc").headD ""
    let rcVersion := "rc" ++ (goSplit version "rc").getD 1 ""
    Except.ok ("https://releases.bazel.build" ++ "/" ++ baseVersion ++ "/" ++ rcVersion ++
      "/" ++ destFile)

/-! ## C5: repository-set construction

`CreateRepositories` and the `no*Repo` stand-ins from
`src/core/repositories.go` (lines 307-404).  Backend capabilities are records
of their operations; a Go `nil` argument is `Option.none`. -/

/-- Release backend capability. -/
structure ReleaseRepo where
  getReleaseVersions : String → (String → Bool) → Except String (List String)
  downloadRelease : String → String → String → Except String String

/-- Candidate backend capability. -/
structure CandidateRepo where
  getCandidateVersions : String → Except String (List String)
  downloadCandidate : String → String → String → Except String String

/-- Fork backend capability. -/
structure ForkRepo where
  getVersions : String → String → Except String (List String)
  downloadVersion : String → String → String → String → Except String String

/-- Commit backend capability. -/
structure CommitRepo where
  getLastGreenCommit : String → Bool → Except String String
  downloadAtCommit : String → String → String → Except String String

/-- Rolling-release backend capability. -/
structure RollingRepo where
  getRollingVersions : String → Except String (List String)
  downloadRolling : String → String → String → Except String String

/-- The capability-slot aggregate. -/
structure Repositories where
  releases : ReleaseRepo
  candidates : CandidateRepo
  fork : ForkRepo
  commits : CommitRepo
  rolling : RollingRepo
  supportsBaseURL : Bool

/-- Stand-in release backend: every operation fails with the fixed error. -/
def noReleaseRepo (e : String) : ReleaseRepo :=
  { getReleaseVersions := fun _ _ => Except.error e
    downloadRelease := fun _ _ _ => Except.error e }

/-- Stand-in candidate backend. -/
def noCandidateRepo (e : String) : CandidateRepo :=
  { getCandidateVersions := fun _ => Except.error e
    downloadCandidate := fun _ _ _ => Except.error e }

/-- Stand-in fork backend. -/
def noForkRepo (e : String) : ForkRepo :=
  { getVersions := fun _ _ => Except.error e
    downloadVersion := fun _ _ _ _ => Except.error e }

/-- Stand-in commit backend. -/
def noCommitRepo (e : String) : CommitRepo :=
  { getLastGreenCommit := fun _ _ => Except.error e
    downloadAtCommit := fun _ _ _ => Except.error e }

/-- Stand-in rolling backend. -/
def noRollingRepo (e : String) : RollingRepo :=
  { getRollingVersions := fun _ => Except.error e
    downloadRolling := fun _ _ _ => Except.error e }

/-- Function `CreateRepositories`: every `nil` argument is replaced by the matching
stand-in with its fixed descriptive error. -/
def CreateRepositories (releases : Option ReleaseRepo) (candidates : Option CandidateRepo)
    (fork : Option ForkRepo) (commits : Option CommitRepo) (rolling : Option RollingRepo)
    (supportsBaseURL : Bool) : Repositories :=
  { releases :=
      match releases with
      | none => noReleaseRepo "Bazel LTS releases are not supported"
      | some r => r
    candidates :=
      match candidates with
      | none => noCandidateRepo "Bazel release candidates are not supported"
      | some r => r
    fork :=
      match fork with
      | none => noForkRepo "forked versions of Bazel are not supported"
      | some r => r
    commits :=
      match commits with
      | none => noCommitRepo "Bazel versions built at commits are not supported"
      | some r => r
    rolling :=
      match rolling with
      | none => noRollingRepo "Bazel rolling releases are not supported"
      | some r => r
    supportsBaseURL := supportsBaseURL }

/-! ## C6: acquisition idempotence

`DownloadBinary` from `src/httputil/httputil.go` (lines 49-97) and
`linkLocalBazel` from `src/unnamed/part_000` (lines 343-362).  The filesystem
is a value listing the directories and (complete) files that exist; the
network is an oracle.  The temp-file/chmod/rename dance makes the final file
appear atomically, so it is modelled as a single state change; `MkdirAll` and
symlink-vs-copy fallback are modelled as always succeeding. -/

/-- Filesystem abstraction: which directories and files exist. -/
structure FileSystem where
  dirs : List String
  files : List String
deriving DecidableEq

/-- Go `os.MkdirAll`: ensure a directory exists. -/
def addDir (fs : FileSystem) (d : String) : FileSystem :=
  if fs.dirs.contains d then fs else { fs with dirs := d :: fs.dirs }

/-- Atomic appearance of a complete file (temp file + rename). -/
def addFile (fs : FileSystem) (p : String) : FileSystem :=
  if fs.files.contains p then fs else { fs with files := p :: fs.files }

/-- Function `DownloadBinary`: returns the new filesystem, the number of network
fetches performed, and the result path or error. -/
def DownloadBinary (net : String → Except String Unit) (fs : FileSystem)
    (originURL destDir destFile : String) : FileSystem × Nat × Except String String :=
  let fs1 := addDir fs destDir
  let destinationPath := destDir ++ "/" ++ destFile
  if fs1.files.contains destinationPath then
    (fs1, 0, Except.ok destinationPath)
  else
    match net originURL with
    | Except.error e =>
      (fs1, 1, Except.error ("HTTP GET " ++ originURL ++ " failed with error " ++ e))
    | Except.ok _ => (addFile fs1 destinationPath, 1, Except.ok destinationPath)

/-- Function `dirForURL`: replace every non-alphanumeric character by `-`. -/
def dirForURL (url : String) : String :=
  String.mk (url.data.map (fun c => if c.isAlphanum then c else '-'))

/-- Function `linkLocalBazel`: ensure a stable link/copy of a local bazel binary; the
`Bool` reports whether any link/copy work was performed.  `suffix` is
`platforms.DetermineExecutableFilenameSuffix()`. -/
def linkLocalBazel (fs : FileSystem) (baseDirectory bazelPath suffix : String) :
    FileSystem × Bool × Except String String :=
  let destinationDir := baseDirectory ++ "/" ++ dirForURL bazelPath ++ "/bin"
  let fs1 := addDir fs destinationDir
  let destinationPath := destinationDir ++ "/bazel" ++ suffix
  if fs1.files.contains destinationPath then
    (fs1, false, Except.ok destinationPath)
  else
    (addFile fs1 destinationPath, true, Except.ok destinationPath)

/-! ## C7 / C10: wrapper delegation and launch command

`maybeDelegateToWrapper` / `makeBazelCmd` / `runBazel` from
`src/unnamed/part_000` (lines 364-444) and the variant copies in
`src/execution/execution.go` (lines 13-68).  The environment is an oracle
`String → String` (empty string = unset); `os.Getwd` is an `Except`;
`findWorkspaceRoot`'s result (the workspace root, `""` when none was found)
is supplied by the filesystem abstraction; `os.Stat` is an oracle returning
the properties the code inspects. -/

/-- The facts `os.Stat` reports that the code inspects. -/
structure FileStat where
  isDir : Bool
  othersExec : Bool
deriving DecidableEq

/-- Name of the skip-wrapper variable, `BAZELISK_SKIP_WRAPPER`. -/
def skipWrapperEnv : String := "BAZELISK_SKIP_WRAPPER"

/-- Name of the real-binary variable, `BAZEL_REAL`. -/
def bazelReal : String := "BAZEL_REAL"

/-- Go `filepath.Join(root, "./tools/bazel")` (the `./` is cleaned away;
joining with an empty root yields the relative path). -/
def joinWrapper (root : String) : String :=
  if root = "" then "tools/bazel" else root ++ "/tools/bazel"

/-- Function `getEnvOrConfig`: environment first, `.bazeliskrc` contents second. -/
def getEnvOrConfig (osEnv fileCfg : String → String) (name : String) : String :=
  if osEnv name ≠ "" then osEnv name else fileCfg name

/-- Function `maybeDelegateToWrapper` (part_000 variant): skip-flag via
`getEnvOrConfig`, wrapper must exist, not be a directory, and carry the
others-execute permission bit (`perm & 0001`). -/
def maybeDelegateToWrapper (config : String → String) (getwd : Except String String)
    (root : String) (stat : String → Option FileStat) (bazel : String) : String :=
  if config skipWrapperEnv ≠ "" then bazel
  else
    match getwd with
    | Except.error _ => bazel
    | Except.ok _ =>
      let wrapper := joinWrapper root
      match stat wrapper with
      | none => bazel
      | some st => if st.isDir || !st.othersExec then bazel else wrapper

/-- Join path components with `/`. -/
def joinSlash : List String → String
  | [] => ""
  | [x] => x
  | x :: y :: rest => x ++ "/" ++ joinSlash (y :: rest)

/-- Go `filepath.Dir` on already-clean paths: everything before the final
separator, `"."` when there is none, `"/"` at the root. -/
def parentDir (p : String) : String :=
  let parts := goSplit p "/"
  if parts.length ≤ 1 then "."
  else
    match parts.dropLast with
    | [""] => "/"
    | l => joinSlash l

/-- The launch command `makeBazelCmd` builds: the executable, its arguments,
the variables appended to the inherited environment, and the directory
prepended to `PATH`. -/
structure BazelCmd where
  execPath : String
  argv : List String
  envAdds : List (String × String)
  pathPrependDir : Option String
deriving DecidableEq

/-- Function `makeBazelCmd` (part_000): delegates to the wrapper if appropriate,
always sets the skip-wrapper flag for the child, sets `BAZEL_REAL` exactly
when delegation changed the executable, and prepends the executable's
directory to `PATH`. -/
def makeBazelCmd (config : String → String) (getwd : Except String String)
    (root : String) (stat : String → Option FileStat) (bazel : String)
    (args : List String) : BazelCmd :=
  let execPath := maybeDelegateToWrapper config getwd root stat bazel
  { execPath := execPath
    argv := args
    envAdds := (skipWrapperEnv, "true") ::
      (if execPath ≠ bazel then [(bazelReal, bazel)] else [])
    pathPrependDir := some (parentDir execPath) }

/-! ## C8: `runBazel` error contract

`runBazel` from `src/unnamed/part_000` (lines 417-444) /
`src/execution/execution.go`.  `cmd.Start` either succeeds or fails with an
error; `cmd.Wait` either returns nil (exit 0), an `*exec.ExitError` carrying
the numeric status, or another error (Go documents that non-exit errors are
possible, e.g. for I/O problems).  The signal-forwarding goroutine does not
affect the returned pair and is not modelled. -/

/-- Outcome of `cmd.Wait` after a successful start. -/
inductive WaitResult where
  | normal
  | exitError (status : Int)
  | otherError (msg : String)

/-- Function `runBazel` and its returned `(exit code, error)` pair, as a function of the
start and wait outcomes. -/
def runBazel (start : Except String Unit) (wait : WaitResult) : Int × Option String :=
  match start with
  | Except.error e => (1, some ("could not start Bazel: " ++ e))
  | Except.ok _ =>
    match wait with
    | WaitResult.normal => (0, none)
    | WaitResult.exitError status => (status, none)
    | WaitResult.otherError e => (1, some ("could not launch Bazel: " ++ e))

/-! ## C10: the two wrapper/runner implementations -/

/-- Function `maybeDelegateToWrapper` (execution.go variant, lines 51-68): reads the
skip flag from the process environment only, and omits the `IsDir` check. -/
def maybeDelegateToWrapperExec (osEnv : String → String) (getwd : Except String String)
    (root : String) (stat : String → Option FileStat) (bazel : String) : String :=
  if osEnv skipWrapperEnv ≠ "" then bazel
  else
    match getwd with
    | Except.error _ => bazel
    | Except.ok _ =>
      let wrapper := joinWrapper root
      match stat wrapper with
      | none => bazel
      | some st => if !st.othersExec then bazel else wrapper

/-- The child-environment effects either implementation produces. -/
structure ChildEnvPlan where
  execPath : String
  bazelRealVar : Option String
  pathPrepend : Option String
deriving DecidableEq

/-- Launch plan of the part_000 implementation (`makeBazelCmd`). -/
def planMain (osEnv fileCfg : String → String) (getwd : Except String String)
    (root : String) (stat : String → Option FileStat) (bazel : String) : ChildEnvPlan :=
  let cmd := makeBazelCmd (getEnvOrConfig osEnv fileCfg) getwd root stat bazel []
  { execPath := cmd.execPath
    bazelRealVar := if cmd.execPath ≠ bazel then some bazel else none
    pathPrepend := cmd.pathPrependDir }

/-- Launch plan of the execution.go implementation (`runBazel` there sets
`BAZEL_REAL` via `os.Setenv` exactly when delegation changed the executable,
and never touches `PATH`; `fileCfg` is accepted for signature parity but
unused). -/
def planExec (osEnv fileCfg : String → String) (getwd : Except String String)
    (root : String) (stat : String → Option FileStat) (bazel : String) : ChildEnvPlan :=
  let execPath := maybeDelegateToWrapperExec osEnv getwd root stat bazel
  { execPath := execPath
    bazelRealVar := if execPath ≠ bazel then some bazel else none
    pathPrepend := none }

/-! ## Basic lemmas about the string order -/

theorem lexLe_total (as : List Char) : ∀ bs, lexLe as bs = true ∨ lexLe bs as = true := by
  induction as with
  | nil => intro bs; exact Or.inl rfl
  | cons a as ih =>
    intro bs
    cases bs with
    | nil => exact Or.inr rfl
    | cons b bs =>
      by_cases h1 : a.toNat < b.toNat
      · left; simp [lexLe, h1]
      · by_cases h2 : b.toNat < a.toNat
        · right; simp [lexLe, h2]
        · rcases ih bs with h | h
          · left; simp [lexLe, h1, h2, h]
          · right; simp [lexLe, h1, h2, h]

theorem lexLe_trans (as : List Char) :
    ∀ bs cs, lexLe as bs = true → lexLe bs cs = true → lexLe as cs = true := by
  induction as with
  | nil => intro bs cs _ _; rfl
  | cons a as ih =>
    intro bs cs h1 h2
    cases bs with
    | nil => simp [lexLe] at h1
    | cons b bs =>
      cases cs with
      | nil => simp [lexLe] at h2
      | cons c cs =>
        simp only [lexLe] at h1 h2 ⊢
        split_ifs at h1 h2 ⊢ <;> first
          | rfl
          | omega
          | exact ih bs cs h1 h2

instance : IsTotal String strLeP :=
  ⟨fun a b => lexLe_total a.data b.data⟩

instance : IsTrans String strLeP :=
  ⟨fun a b c h1 h2 => lexLe_trans a.data b.data c.data h1 h2⟩

/-! ## C1: `latest-N` indexes the ascending listing from the top -/

/-- C1.  For every ascending version listing `V` returned by the backend and
every offset `N`, `resolveLatestVersion` returns `V[len(V)-1-N]` when
`N < len(V)`, and fails with the error naming the number of available
versions when `N ≥ len(V)`. -/
theorem latestOffsetResolution (V : List String) (N : Nat)
    (hsorted : List.Sorted verLeP V) :
    (N < V.length →
      resolveLatestVersion V N = Except.ok (V.getD (V.length - 1 - N) ""))
    ∧ (V.length ≤ N →
      resolveLatestVersion V N = Except.error ("cannot resolve version \"latest-" ++
        toString N ++ "\": There are only " ++ toString V.length ++ " Bazel versions")) := by
  constructor
  · intro h
    unfold resolveLatestVersion GetInAscendingOrder
    rw [if_neg (by omega), List.Sorted.insertionSort_eq hsorted]
  · intro h
    unfold resolveLatestVersion
    rw [if_pos h]

/-- C1 witness: the spec's own example `V = [5.0.0, 5.1.0, 5.2.0, 5.3.0]`,
`N = 2 ⇒ "5.1.0"`, and an out-of-range offset naming the count. -/
theorem latestOffsetResolution_witness :
    resolveLatestVersion ["5.0.0", "5.1.0", "5.2.0", "5.3.0"] 2 = Except.ok "5.1.0"
    ∧ resolveLatestVersion ["5.0.0", "5.1.0", "5.2.0", "5.3.0"] 6 =
        Except.error "cannot resolve version \"latest-6\": There are only 4 Bazel versions" := by
  have h := latestOffsetResolution ["5.0.0", "5.1.0", "5.2.0", "5.3.0"] 2 (by decide)
  have h6 := latestOffsetResolution ["5.0.0", "5.1.0", "5.2.0", "5.3.0"] 6 (by decide)
  exact ⟨h.1 (by decide), h6.2 (by decide)⟩

/-! ## C9: argument insertion before `--` and sorted flag keys -/

/-- C9.  `insertArgs` places the new flags immediately before the first
literal `"--"` of `baseArgs` when one exists and appends them at the end
otherwise, preserving all original elements in order; `getSortedKeys`
supplies the flag names lexically sorted (a permutation of the key set). -/
theorem insertArgs_spec (baseArgs newArgs flags : List String) :
    ("--" ∈ baseArgs →
      insertArgs baseArgs newArgs =
        baseArgs.takeWhile (fun a => a != "--") ++ newArgs ++
          baseArgs.dropWhile (fun a => a != "--"))
    ∧ ("--" ∉ baseArgs → insertArgs baseArgs newArgs = baseArgs ++ newArgs)
    ∧ List.Sorted strLeP (getSortedKeys flags)
    ∧ List.Perm (getSortedKeys flags) flags := by
  refine ⟨?_, ?_, List.sorted_insertionSort strLeP flags, List.perm_insertionSort strLeP flags⟩
  · intro hmem
    induction baseArgs with
    | nil => cases hmem
    | cons a rest ih =>
      by_cases ha : a = "--"
      · subst ha
        simp [insertArgs, List.takeWhile_cons, List.dropWhile_cons]
      · have hmem' : "--" ∈ rest := by
          rcases List.mem_cons.mp hmem with h | h
          · exact absurd h.symm ha
          · exact h
        simp [insertArgs, ha, List.takeWhile_cons, List.dropWhile_cons, ih hmem']
  · intro hmem
    induction baseArgs with
    | nil => rfl
    | cons a rest ih =>
      have ha : ¬(a = "--") := fun h => hmem (h ▸ List.mem_cons_self a rest)
      have hmem' : "--" ∉ rest := fun h => hmem (List.mem_cons_of_mem a h)
      simp [insertArgs, ha, ih hmem']

/-- C9 witness: insertion before `--`, appending without `--`, and sorting. -/
theorem insertArgs_spec_witness :
    insertArgs ["build", "--", "t"] ["--a", "--b"] = ["build", "--a", "--b", "--", "t"]
    ∧ insertArgs ["build"] ["--a"] = ["build", "--a"]
    ∧ List.Sorted strLeP (getSortedKeys ["--b", "--a"]) := by
  have h := insertArgs_spec ["build", "--", "t"] ["--a", "--b"] ["--b", "--a"]
  have h2 := insertArgs_spec ["build"] ["--a"] ["--b", "--a"]
  refine ⟨?_, ?_, h.2.2.1⟩
  · have := h.1 (by decide)
    simpa using this
  · have := h2.2.1 (by decide)
    simpa using this

/-! ## C2: migration bisection phases, trial counts and classification -/

/-- C2.  With the all-flags trial passing, `migrate` runs exactly one trial
and exits 0; with both the all-flags and the no-flags trial failing, it runs
exactly two trials and exits with the no-flags trial's code; otherwise it
runs exactly `2 + |flags|` trials, classifies each flag exactly once into the
pass or fail list (both name-sorted), and exits 1. -/
theorem migrateBisection (run : List String → Int) (baseArgs flags : List String)
    (hnd : flags.Nodup) :
    (run (insertArgs baseArgs (getSortedKeys flags)) = 0 →
      migrate run baseArgs flags =
        { trials := [insertArgs baseArgs (getSortedKeys flags)], exitCode := 0,
          passList := [], failList := [] })
    ∧ (run (insertArgs baseArgs (getSortedKeys flags)) ≠ 0 → run baseArgs ≠ 0 →
      (migrate run baseArgs flags).trials.length = 2
      ∧ (migrate run baseArgs flags).exitCode = run baseArgs)
    ∧ (run (insertArgs baseArgs (getSortedKeys flags)) ≠ 0 → run baseArgs = 0 →
      (migrate run baseArgs flags).trials.length = 2 + flags.length
      ∧ (migrate run baseArgs flags).exitCode = 1
      ∧ List.Perm
          ((migrate run baseArgs flags).passList ++ (migrate run baseArgs flags).failList)
          flags
      ∧ ((migrate run baseArgs flags).passList ++ (migrate run baseArgs flags).failList).Nodup
      ∧ List.Sorted strLeP (migrate run baseArgs flags).passList
      ∧ List.Sorted strLeP (migrate run baseArgs flags).failList) := by
  have hperm : List.Perm (getSortedKeys flags) flags := List.perm_insertionSort strLeP flags
  have hsorted : List.Sorted strLeP (getSortedKeys flags) :=
    List.sorted_insertionSort strLeP flags
  refine ⟨?_, ?_, ?_⟩
  · intro h1
    simp only [migrate]
    rw [if_pos h1]
  · intro h1 h2
    simp only [migrate]
    rw [if_neg h1, if_pos h2]
    exact ⟨rfl, rfl⟩
  · intro h1 h2
    have h2' : ¬ (run baseArgs ≠ 0) := fun hc => hc h2
    simp only [migrate]
    rw [if_neg h1, if_neg h2']
    have hfilters : List.Perm
        ((getSortedKeys flags).filter (fun arg => run (insertArgs baseArgs [arg]) == 0) ++
          (getSortedKeys flags).filter (fun arg => !(run (insertArgs baseArgs [arg]) == 0)))
        (getSortedKeys flags) :=
      List.filter_append_perm _ (getSortedKeys flags)
    have hflagperm := hfilters.trans hperm
    refine ⟨?_, rfl, hflagperm, hflagperm.nodup_iff.mpr hnd, ?_, ?_⟩
    · simp only [List.length_cons, List.length_map]
      rw [hperm.length_eq]
      omega
    · exact List.Pairwise.filter _ hsorted
    · exact List.Pairwise.filter _ hsorted

/-- C2 witness: the spec's scenario `baseArgs = ["build", "//:t"]` with two
flags, where the all-flags trial fails and the no-flags trial passes: four
trials, exit 1, both flags classified. -/
theorem migrateBisection_witness :
    (migrate (fun args => if args = ["build", "//:t"] then 0 else 1)
        ["build", "//:t"] ["--B", "--A"]).trials.length = 4
    ∧ (migrate (fun args => if args = ["build", "//:t"] then 0 else 1)
        ["build", "//:t"] ["--B", "--A"]).exitCode = 1
    ∧ List.Perm
        ((migrate (fun args => if args = ["build", "//:t"] then 0 else 1)
            ["build", "//:t"] ["--B", "--A"]).passList ++
          (migrate (fun args => if args = ["build", "//:t"] then 0 else 1)
            ["build", "//:t"] ["--B", "--A"]).failList)
        ["--B", "--A"] := by
  have h := migrateBisection (fun args => if args = ["build", "//:t"] then 0 else 1)
    ["build", "//:t"] ["--B", "--A"] (by decide)
  have h3 := h.2.2 (by decide) (by decide)
  exact ⟨h3.1, h3.2.1, h3.2.2.1⟩

/-! ## C5: every capability slot is filled at construction time -/

/-- C5.  After `CreateRepositories`, each slot holds the given backend when
one was supplied and the matching stand-in otherwise, and every operation of
every stand-in returns its fixed descriptive error (so no caller can observe
an absent backend). -/
theorem createRepositoriesFillsSlots (oRel : Option ReleaseRepo)
    (oCand : Option CandidateRepo) (oFork : Option ForkRepo) (oCom : Option CommitRepo)
    (oRoll : Option RollingRepo) (b : Bool) :
    ((CreateRepositories oRel oCand oFork oCom oRoll b).releases =
        oRel.getD (noReleaseRepo "Bazel LTS releases are not supported")
      ∧ (CreateRepositories oRel oCand oFork oCom oRoll b).candidates =
        oCand.getD (noCandidateRepo "Bazel release candidates are not supported")
      ∧ (CreateRepositories oRel oCand oFork oCom oRoll b).fork =
        oFork.getD (noForkRepo "forked versions of Bazel are not supported")
      ∧ (CreateRepositories oRel oCand oFork oCom oRoll b).commits =
        oCom.getD (noCommitRepo "Bazel versions built at commits are not supported")
      ∧ (CreateRepositories oRel oCand oFork oCom oRoll b).rolling =
        oRoll.getD (noRollingRepo "Bazel rolling releases are not supported"))
    ∧ (∀ e home filter version destDir destFile fork commit downstream,
        (noReleaseRepo e).getReleaseVersions home filter = Except.error e
      ∧ (noReleaseRepo e).downloadRelease version destDir destFile = Except.error e
      ∧ (noCandidateRepo e).getCandidateVersions home = Except.error e
      ∧ (noCandidateRepo e).downloadCandidate version destDir destFile = Except.error e
      ∧ (noForkRepo e).getVersions home fork = Except.error e
      ∧ (noForkRepo e).downloadVersion fork version destDir destFile = Except.error e
      ∧ (noCommitRepo e).getLastGreenCommit home downstream = Except.error e
      ∧ (noCommitRepo e).downloadAtCommit commit destDir destFile = Except.error e
      ∧ (noRollingRepo e).getRollingVersions home = Except.error e
      ∧ (noRollingRepo e).downloadRolling version destDir destFile = Except.error e) := by
  refine ⟨⟨?_, ?_, ?_, ?_, ?_⟩, ?_⟩
  · cases oRel <;> rfl
  · cases oCand <;> rfl
  · cases oFork <;> rfl
  · cases oCom <;> rfl
  · cases oRoll <;> rfl
  · intro e home filter version destDir destFile fork commit downstream
    exact ⟨rfl, rfl, rfl, rfl, rfl, rfl, rfl, rfl, rfl, rfl⟩

/-! ## C8: which runner outcomes carry a non-nil error -/

/-- C8 counterexample.  A `cmd.Wait` failure that is not an `*exec.ExitError`
occurs after a successful start, yet `runBazel` returns a non-nil error for
it, contradicting the claim that an error is returned only when the child
could not be started at all. -/
theorem runBazelPostStartError_counterexample :
    runBazel (Except.ok ()) (WaitResult.otherError "io failure") =
      (1, some "could not launch Bazel: io failure") := by decide

/-- C8 (amended).  `runBazel` returns a non-nil error when `cmd.Start` fails
and also when `cmd.Wait` fails with a non-exit error; a nonzero exit status
reported by `*exec.ExitError` is returned with a nil error, as is success. -/
theorem runBazelErrorContract (e m : String) (st : Int) (w : WaitResult) :
    runBazel (Except.error e) w = (1, some ("could not start Bazel: " ++ e))
    ∧ runBazel (Except.ok ()) WaitResult.normal = (0, none)
    ∧ runBazel (Except.ok ()) (WaitResult.exitError st) = (st, none)
    ∧ runBazel (Except.ok ()) (WaitResult.otherError m) =
      (1, some ("could not launch Bazel: " ++ m)) :=
  ⟨rfl, rfl, rfl, rfl⟩

/-! ## C3: `last_rc` selection -/

theorem getHighestRcVersionGo_run (vs : List String) :
    ∀ version lastRc,
      (∀ v ∈ vs, goContains v "release" = false ∧ (rcMatch v).isSome = true) →
      getHighestRcVersionGo vs version lastRc =
        GoResult.ok ((vs.map rcBase).getLastD version ++ "rc" ++
          toString (vs.foldl (fun acc v => max acc (rcOf v)) lastRc)) := by
  induction vs with
  | nil => intro version lastRc _; rfl
  | cons v rest ih =>
    intro version lastRc hall
    obtain ⟨hrel, hsome⟩ := hall v (List.mem_cons_self v rest)
    obtain ⟨⟨base, rc⟩, heq⟩ := Option.isSome_iff_exists.mp hsome
    have hbase : rcBase v = base := by simp [rcBase, heq]
    have hrc : rcOf v = rc := by simp [rcOf, heq]
    have hmax : (if lastRc < rc then rc else lastRc) = max lastRc rc := by
      rcases Nat.lt_or_ge lastRc rc with h | h
      · rw [if_pos h, Nat.max_eq_right (Nat.le_of_lt h)]
      · rw [if_neg (Nat.not_lt.mpr h), Nat.max_eq_left h]
    simp only [getHighestRcVersionGo, hrel, Bool.false_eq_true, if_false, heq]
    rw [ih base _ (fun w hw => hall w (List.mem_cons_of_mem v hw))]
    simp only [List.map_cons, List.getLastD_cons, List.foldl_cons, hbase, hrc, hmax]

/-- C3 counterexample.  `resolveLatestRcVersion` with a non-empty version
history whose latest release has an empty candidate listing: the claim says
an empty listing must fail with an error, but the code returns the label
`"rc0"` successfully (the loop of `getHighestRcVersion` never runs, leaving
the Go zero values `""` and `0`). -/
theorem lastRcEmptyListing_counterexample :
    resolveLatestRcVersion ["5.0.0"] (fun _ => Except.ok []) = GoResult.ok "rc0" := by
  decide

/-- C3 (amended).  Over a candidate listing whose entries are all RC-shaped
(and none contains `"release"`), `getHighestRcVersion` succeeds with the
numerically highest RC number (base version taken from the last entry); but
an empty listing yields the label `"rc0"` instead of an error, and an entry
that is neither RC-shaped nor a `"release"` entry panics on the nil regex
match instead of returning an error (only the enclosing
`resolveLatestRcVersion` guards the empty *version history* with an error). -/
theorem lastRcSelectsHighestNumericRc (vs : List String)
    (hall : ∀ v ∈ vs, goContains v "release" = false ∧ (rcMatch v).isSome = true) :
    getHighestRcVersion vs =
      GoResult.ok ((vs.map rcBase).getLastD "" ++ "rc" ++
        toString (vs.foldl (fun acc v => max acc (rcOf v)) 0))
    ∧ (∀ w, w ∈ vs → goContains w "release" = false → rcMatch w = none →
        getHighestRcVersion vs = GoResult.crash ∨ ∃ r, getHighestRcVersion vs = GoResult.ok r) := by
  constructor
  · exact getHighestRcVersionGo_run vs "" 0 hall
  · intro w hw _ hnone
    obtain ⟨_, hsome⟩ := hall w hw
    rw [hnone] at hsome
    cases hsome

/-- C3 witness: RC listing `5.0.0/rc1/, 5.0.0/rc3/, 5.0.0/rc2/` resolves to
`5.0.0rc3`: the numerically highest candidate, not the last or the
lexically highest. -/
theorem lastRcSelectsHighestNumericRc_witness :
    getHighestRcVersion ["5.0.0/rc1/", "5.0.0/rc3/", "5.0.0/rc2/"] =
      GoResult.ok "5.0.0rc3" := by
  have h := lastRcSelectsHighestNumericRc ["5.0.0/rc1/", "5.0.0/rc3/", "5.0.0/rc2/"]
    (by decide)
  rw [h.1]
  decide

/-! ## C4: release-candidate labels are split as strings, never validated -/

/-- C4 counterexample.  The label `"5.0.0rcX"` has a non-numeric ordinal, yet
both URL computations accept it silently and embed `rcX` in the download URL;
neither performs any numeric parse, so no fatal parse error is possible. -/
theorem rcOrdinalNotValidated_counterexample :
    candidateDownloadURL "5.0.0rcX" "bazel-linux" =
      Except.ok "https://releases.bazel.build/5.0.0/rcX/bazel-linux"
    ∧ determineURL "" "bazelbuild" "5.0.0rcX" false "linux-x86_64" "bazel-linux" =
      "https://releases.bazel.build/5.0.0/rcX/bazel-linux" :=
  ⟨rfl, rfl⟩

/-- C4 (amended).  A label of the form `base + "rc" + suffix` is split on the
first `"rc"` into the base version and the literal kind `"rc" + suffix` for
URL construction; the suffix is not parsed as a number, and a non-numeric
suffix is silently accepted rather than causing a fatal parse error. -/
theorem rcLabelSplitUnvalidated (base suffix destFile : String)
    (hcontains : goContains (base ++ "rc" ++ suffix) "rc" = true)
    (hsplit : goSplit (base ++ "rc" ++ suffix) "rc" = [base, suffix]) :
    determineURL "" BazelUpstream (base ++ "rc" ++ suffix) false "linux-x86_64" destFile =
      "https://releases.bazel.build/" ++ base ++ "/" ++ ("rc" ++ suffix) ++ "/" ++ destFile
    ∧ candidateDownloadURL (base ++ "rc" ++ suffix) destFile =
      Except.ok ("https://releases.bazel.build" ++ "/" ++ base ++ "/" ++ ("rc" ++ suffix) ++
        "/" ++ destFile) := by
  constructor
  · unfold determineURL
    simp [hcontains, hsplit, IsFork, BazelUpstream]
  · unfold candidateDownloadURL
    simp [hcontains, hsplit]

/-- C4 witness: `"5.0.0rc3"` splits into base `"5.0.0"` and kind `"rc3"`. -/
theorem rcLabelSplitUnvalidated_witness :
    determineURL "" BazelUpstream "5.0.0rc3" false "linux-x86_64" "bazel-linux" =
      "https://releases.bazel.build/5.0.0/rc3/bazel-linux"
    ∧ candidateDownloadURL "5.0.0rc3" "bazel-linux" =
      Except.ok "https://releases.bazel.build/5.0.0/rc3/bazel-linux" := by
  have h := rcLabelSplitUnvalidated "5.0.0" "3" "bazel-linux" (by decide) (by decide)
  exact ⟨h.1, h.2⟩

/-! ## C6: acquisition idempotence lemmas and theorem -/

theorem addDir_files (fs : FileSystem) (d : String) : (addDir fs d).files = fs.files := by
  unfold addDir
  split <;> rfl

theorem addFile_dirs (fs : FileSystem) (p : String) : (addFile fs p).dirs = fs.dirs := by
  unfold addFile
  split <;> rfl

theorem addDir_dirs_self (fs : FileSystem) (d : String) :
    (addDir fs d).dirs.contains d = true := by
  unfold addDir
  split
  · assumption
  · simp

theorem addDir_of_mem (fs : FileSystem) (d : String) (h : fs.dirs.contains d = true) :
    addDir fs d = fs := by
  unfold addDir
  rw [if_pos h]

theorem addFile_files_self (fs : FileSystem) (p : String) :
    (addFile fs p).files.contains p = true := by
  unfold addFile
  split
  · assumption
  · simp

/-- C6.  `DownloadBinary` performs no fetch and returns the canonical path
whenever the destination file already exists; starting from a state without
it, the first call fetches exactly once and the second call reuses the file
(same path, zero fetches, state unchanged), so two sequential acquisitions
perform exactly one download; and `linkLocalBazel`, once its destination
exists, does no link/copy work and returns the same path. -/
theorem acquisitionIdempotent (net : String → Except String Unit) (fs : FileSystem)
    (u d f base bp suffix : String)
    (hnet : net u = Except.ok ())
    (habsent : fs.files.contains (d ++ "/" ++ f) = false) :
    DownloadBinary net fs u d f =
      (addFile (addDir fs d) (d ++ "/" ++ f), 1, Except.ok (d ++ "/" ++ f))
    ∧ DownloadBinary net (DownloadBinary net fs u d f).1 u d f =
      ((DownloadBinary net fs u d f).1, 0, Except.ok (d ++ "/" ++ f))
    ∧ (∀ fs2 : FileSystem, fs2.files.contains (d ++ "/" ++ f) = true →
        DownloadBinary net fs2 u d f = (addDir fs2 d, 0, Except.ok (d ++ "/" ++ f)))
    ∧ linkLocalBazel (linkLocalBazel fs base bp suffix).1 base bp suffix =
      ((linkLocalBazel fs base bp suffix).1, false,
        Except.ok (base ++ "/" ++ dirForURL bp ++ "/bin" ++ "/bazel" ++ suffix)) := by
  have hexists : ∀ fs2 : FileSystem, fs2.files.contains (d ++ "/" ++ f) = true →
      DownloadBinary net fs2 u d f = (addDir fs2 d, 0, Except.ok (d ++ "/" ++ f)) := by
    intro fs2 h2
    unfold DownloadBinary
    rw [if_pos (by rw [addDir_files]; exact h2)]
  have hfirst : DownloadBinary net fs u d f =
      (addFile (addDir fs d) (d ++ "/" ++ f), 1, Except.ok (d ++ "/" ++ f)) := by
    unfold DownloadBinary
    rw [if_neg (by rw [addDir_files, habsent]; exact Bool.false_ne_true), hnet]
  refine ⟨hfirst, ?_, hexists, ?_⟩
  · rw [hfirst]
    have hmem : (addFile (addDir fs d) (d ++ "/" ++ f)).files.contains (d ++ "/" ++ f) =
        true := addFile_files_self _ _
    rw [hexists _ hmem]
    rw [addDir_of_mem]
    rw [addFile_dirs]
    exact addDir_dirs_self fs d
  · have hlink : ∀ fs2 : FileSystem,
        fs2.files.contains (base ++ "/" ++ dirForURL bp ++ "/bin" ++ "/bazel" ++ suffix) = true →
        fs2.dirs.contains (base ++ "/" ++ dirForURL bp ++ "/bin") = true →
        linkLocalBazel fs2 base bp suffix =
          (fs2, false, Except.ok (base ++ "/" ++ dirForURL bp ++ "/bin" ++ "/bazel" ++ suffix)) := by
      intro fs2 h2 hd
      simp only [linkLocalBazel]
      rw [addDir_of_mem _ _ hd, if_pos h2]
    by_cases hc :
        (addDir fs (base ++ "/" ++ dirForURL bp ++ "/bin")).files.contains
          (base ++ "/" ++ dirForURL bp ++ "/bin" ++ "/bazel" ++ suffix) = true
    · have h1 : linkLocalBazel fs base bp suffix =
          (addDir fs (base ++ "/" ++ dirForURL bp ++ "/bin"), false,
            Except.ok (base ++ "/" ++ dirForURL bp ++ "/bin" ++ "/bazel" ++ suffix)) := by
        simp only [linkLocalBazel]
        rw [if_pos hc]
      rw [h1]
      exact hlink _ hc (addDir_dirs_self fs _)
    · have h1 : linkLocalBazel fs base bp suffix =
          (addFile (addDir fs (base ++ "/" ++ dirForURL bp ++ "/bin"))
              (base ++ "/" ++ dirForURL bp ++ "/bin" ++ "/bazel" ++ suffix), true,
            Except.ok (base ++ "/" ++ dirForURL bp ++ "/bin" ++ "/bazel" ++ suffix)) := by
        simp only [linkLocalBazel]
        rw [if_neg hc]
      rw [h1]
      exact hlink _ (addFile_files_self _ _)
        (by rw [addFile_dirs]; exact addDir_dirs_self fs _)

/-- C6 witness: concrete two-call acquisition starting from an empty
filesystem with an always-succeeding network. -/
theorem acquisitionIdempotent_witness :
    DownloadBinary (fun _ => Except.ok ()) ⟨[], []⟩ "https://x" "dl" "bazel" =
      (⟨["dl"], ["dl/bazel"]⟩, 1, Except.ok "dl/bazel")
    ∧ DownloadBinary (fun _ => Except.ok ()) ⟨["dl"], ["dl/bazel"]⟩ "https://x" "dl" "bazel" =
      (⟨["dl"], ["dl/bazel"]⟩, 0, Except.ok "dl/bazel") := by
  have h := acquisitionIdempotent (fun _ => Except.ok ()) ⟨[], []⟩ "https://x" "dl" "bazel"
    "loc" "/usr/bin/bazel" "" rfl (by decide)
  exact ⟨h.1, h.2.1⟩

/-! ## C7: wrapper delegation and the real-binary variable -/

/-- C7 counterexample.  A filesystem state satisfying all of the claim's
conditions (executable, non-directory wrapper at the workspace root, skip
flag unset) in which the resolved binary's path coincides with the wrapper's
path: the plan targets the wrapper, but `execPath != bazel` is false, so the
real-binary variable `BAZEL_REAL` is *not* set, contradicting the claim's
"for every filesystem state". -/
theorem wrapperDelegation_counterexample :
    makeBazelCmd (fun _ => "") (Except.ok "/r") "/r"
        (fun p => if p = "/r/tools/bazel" then some ⟨false, true⟩ else none)
        "/r/tools/bazel" [] =
      { execPath := "/r/tools/bazel", argv := [],
        envAdds := [("BAZELISK_SKIP_WRAPPER", "true")],
        pathPrependDir := some "/r/tools" } := by decide

/-- C7 (amended).  With the skip flag unset and the working directory
available: if the wrapper exists, is not a directory, has the execute bit,
and its path differs from the resolved binary's, the command targets the
wrapper and sets `BAZEL_REAL` to the resolved binary; if no qualifying
wrapper exists (absent, a directory, or not executable), the command targets
the resolved binary and `BAZEL_REAL` is not set. -/
theorem wrapperDelegation (config : String → String) (wd root : String)
    (stat : String → Option FileStat) (bazel : String) (args : List String)
    (hskip : config skipWrapperEnv = "") :
    ((stat (joinWrapper root) = some ⟨false, true⟩ ∧ joinWrapper root ≠ bazel) →
      (makeBazelCmd config (Except.ok wd) root stat bazel args).execPath = joinWrapper root
      ∧ (bazelReal, bazel) ∈ (makeBazelCmd config (Except.ok wd) root stat bazel args).envAdds)
    ∧ ((∀ st, stat (joinWrapper root) = some st → st.isDir = true ∨ st.othersExec = false) →
      (makeBazelCmd config (Except.ok wd) root stat bazel args).execPath = bazel
      ∧ ∀ v, (bazelReal, v) ∉ (makeBazelCmd config (Except.ok wd) root stat bazel args).envAdds) := by
  have hskip' : ¬ (config skipWrapperEnv ≠ "") := fun hc => hc hskip
  constructor
  · rintro ⟨hstat, hne⟩
    have hexec : maybeDelegateToWrapper config (Except.ok wd) root stat bazel =
        joinWrapper root := by
      unfold maybeDelegateToWrapper
      rw [if_neg hskip']
      simp [hstat]
    refine ⟨hexec, ?_⟩
    simp only [makeBazelCmd, hexec]
    rw [if_pos hne]
    simp
  · intro hbad
    have hexec : maybeDelegateToWrapper config (Except.ok wd) root stat bazel = bazel := by
      unfold maybeDelegateToWrapper
      rw [if_neg hskip']
      cases hstat : stat (joinWrapper root) with
      | none => simp [hstat]
      | some st =>
        rcases hbad st hstat with h | h <;> simp [hstat, h]
    refine ⟨hexec, ?_⟩
    intro v
    simp only [makeBazelCmd, hexec]
    rw [if_neg (fun hc => hc rfl)]
    intro hmem
    rcases List.mem_cons.mp hmem with h | h
    · have hfst : bazelReal = skipWrapperEnv := congrArg Prod.fst h
      exact absurd hfst (by decide)
    · cases h

/-- C7 witness: an executable non-directory wrapper distinct from the
resolved binary is targeted and `BAZEL_REAL` is set; a non-executable
wrapper is not targeted and `BAZEL_REAL` stays unset. -/
theorem wrapperDelegation_witness :
    (makeBazelCmd (fun _ => "") (Except.ok "/w") "/r" (fun _ => some ⟨false, true⟩)
        "/cache/bazel" []).execPath = "/r/tools/bazel"
    ∧ (bazelReal, "/cache/bazel") ∈
        (makeBazelCmd (fun _ => "") (Except.ok "/w") "/r" (fun _ => some ⟨false, true⟩)
          "/cache/bazel" []).envAdds
    ∧ (makeBazelCmd (fun _ => "") (Except.ok "/w") "/r" (fun _ => some ⟨false, false⟩)
        "/cache/bazel" []).execPath = "/cache/bazel"
    ∧ (bazelReal, "/cache/bazel") ∉
        (makeBazelCmd (fun _ => "") (Except.ok "/w") "/r" (fun _ => some ⟨false, false⟩)
          "/cache/bazel" []).envAdds := by
  have h1 := wrapperDelegation (fun _ => "") "/w" "/r" (fun _ => some ⟨false, true⟩)
    "/cache/bazel" [] rfl
  have h2 := wrapperDelegation (fun _ => "") "/w" "/r" (fun _ => some ⟨false, false⟩)
    "/cache/bazel" [] rfl
  have hp := h1.1 ⟨rfl, by decide⟩
  have hn := h2.2 (by intro st hst; cases hst; exact Or.inr rfl)
  exact ⟨hp.1, hp.2, hn.1, hn.2 "/cache/bazel"⟩

/-! ## C10: the two implementations are not equivalent -/

/-- C10 counterexample.  A state in which the wrapper path names a directory
carrying the execute bit (the normal case for directories): the
execution.go variant, which omits the `IsDir` check, delegates to the
directory, while the part_000 variant targets the resolved binary — the two
implementations choose different executables (their PATH handling differs on
every state besides). -/
theorem implementationsDiverge_counterexample :
    planExec (fun _ => "") (fun _ => "") (Except.ok "/w") "/r"
        (fun p => if p = "/r/tools/bazel" then some ⟨true, true⟩ else none) "/cache/bazel" ≠
      planMain (fun _ => "") (fun _ => "") (Except.ok "/w") "/r"
        (fun p => if p = "/r/tools/bazel" then some ⟨true, true⟩ else none) "/cache/bazel" := by
  decide

/-- C10 (amended).  The two implementations agree on the chosen executable
and on the real-binary variable whenever the skip flag is not set via
`.bazeliskrc` alone and the wrapper path is not a directory; they are not
equivalent in general: execution.go omits the `IsDir` check, consults only
the process environment for the skip flag, and adds no `PATH` entry. -/
theorem implementationsAgreeWhenGuarded (osEnv fileCfg : String → String)
    (getwd : Except String String) (root : String) (stat : String → Option FileStat)
    (bazel : String)
    (hcfg : fileCfg skipWrapperEnv = "")
    (hdir : ∀ st, stat (joinWrapper root) = some st → st.isDir = false) :
    (planExec osEnv fileCfg getwd root stat bazel).execPath =
      (planMain osEnv fileCfg getwd root stat bazel).execPath
    ∧ (planExec osEnv fileCfg getwd root stat bazel).bazelRealVar =
      (planMain osEnv fileCfg getwd root stat bazel).bazelRealVar := by
  have hexec : maybeDelegateToWrapperExec osEnv getwd root stat bazel =
      maybeDelegateToWrapper (getEnvOrConfig osEnv fileCfg) getwd root stat bazel := by
    unfold maybeDelegateToWrapperExec maybeDelegateToWrapper getEnvOrConfig
    by_cases hos : osEnv skipWrapperEnv ≠ ""
    · rw [if_pos hos, if_pos (by rw [if_pos hos]; exact hos)]
    · have hos' : osEnv skipWrapperEnv = "" := by
        by_cases h : osEnv skipWrapperEnv = ""
        · exact h
        · exact absurd h hos
      rw [if_neg hos, if_neg (by rw [if_neg hos]; intro hc; exact hc hcfg)]
      cases getwd with
      | error _ => rfl
      | ok _ =>
        cases hstat : stat (joinWrapper root) with
        | none => simp [hstat]
        | some st =>
          have hd := hdir st hstat
          simp [hstat, hd]
  unfold planExec planMain makeBazelCmd
  rw [hexec]
  exact ⟨rfl, rfl⟩

/-- C10 witness: with the skip flag unset everywhere and an executable
non-directory wrapper, both implementations choose the wrapper and set the
real-binary variable. -/
theorem implementationsAgreeWhenGuarded_witness :
    (planExec (fun _ => "") (fun _ => "") (Except.ok "/w") "/r"
        (fun _ => some ⟨false, true⟩) "/cache/bazel").execPath =
      (planMain (fun _ => "") (fun _ => "") (Except.ok "/w") "/r"
        (fun _ => some ⟨false, true⟩) "/cache/bazel").execPath
    ∧ (planExec (fun _ => "") (fun _ => "") (Except.ok "/w") "/r"
        (fun _ => some ⟨false, true⟩) "/cache/bazel").bazelRealVar =
      (planMain (fun _ => "") (fun _ => "") (Except.ok "/w") "/r"
        (fun _ => some ⟨false, true⟩) "/cache/bazel").bazelRealVar := by
  have h := implementationsAgreeWhenGuarded (fun _ => "") (fun _ => "") (Except.ok "/w")
    "/r" (fun _ => some ⟨false, true⟩) "/cache/bazel" rfl
    (by intro st hst; cases hst; rfl)
  exact ⟨h.1, h.2⟩

end Bazelisk
